import Mathlib

set_option maxRecDepth 8000

/-!
A shallow embedding of src/main.py, the dharmaseed transcription pipeline.
The SQLite tables and the two S3 buckets become explicit state records,
the two unbounded while loops (job-name allocation on lines 95..109 and
status polling on lines 120..132) take explicit fuel or a finite poll
stream, and Python exceptions become error values returned next to the
state reached so far.
-/

namespace Dharma

/-- Word characters in the ASCII fragment of the Python regex class:
letters, digits and the underscore. The re.sub call on line 94 removes
exactly the characters for which this is false. -/
def isWordChar (c : Char) : Bool := c.isAlpha || c.isDigit || c == '_'

/-- main.py line 94, re.sub applied to the talk title: every maximal run
of non-word characters is replaced by the empty string, that is, every
non-word character is removed and the word characters are kept in order. -/
def sanitize : List Char → List Char
  | [] => []
  | c :: rest => if isWordChar c then c :: sanitize rest else sanitize rest

/-- Helper for pySplit: prepend a character to the first chunk. -/
def consHead (c : Char) : List (List Char) → List (List Char)
  | [] => [[c]]
  | h :: t => (c :: h) :: t

/-- Python str.split with a one-character separator, as used on line 108:
splitting the empty string gives one empty chunk, and every separator
occurrence starts a new chunk. -/
def pySplit (sep : Char) : List Char → List (List Char)
  | [] => [[]]
  | c :: rest => if c == sep then [] :: pySplit sep rest else consHead c (pySplit sep rest)

/-- Python str.join, as used on line 108. -/
def pyJoin (sep : List Char) : List (List Char) → List Char
  | [] => []
  | [x] => x
  | x :: y :: t => x ++ sep ++ pyJoin sep (y :: t)

/-- main.py line 108: drop the last underscore-separated segment of a
name, by splitting on the underscore, dropping the last chunk and
rejoining with underscores. -/
def stripLast (s : List Char) : List Char :=
  pyJoin ['_'] ((pySplit '_' s).dropLast)

/-- Decimal digit character. -/
def digitChar (d : Nat) : Char := Char.ofNat (48 + d)

/-- Decimal digits of a natural number, fuelled so the recursion stays
structural; the fuel chosen by natStr is always sufficient. -/
def natStrAux : Nat → Nat → List Char
  | 0, _ => []
  | fuel + 1, n =>
    if n < 10 then [digitChar n] else natStrAux fuel (n / 10) ++ [digitChar (n % 10)]

/-- Python str applied to a natural number, as used on line 108. -/
def natStr (n : Nat) : List Char := natStrAux (n + 1) n

/-- main.py lines 95..109: the job-creation retry loop. The collision
predicate isTaken models the remote ConflictException on line 107; fuel
bounds how many iterations are inspected, while the source loop itself
is unbounded. On a collision the current name loses its last underscore
segment and gains the suffix underscore i, and i is incremented. -/
def allocLoop (isTaken : List Char → Bool) : Nat → List Char → Nat → Option (List Char)
  | 0, _, _ => none
  | fuel + 1, name, i =>
    if isTaken name then allocLoop isTaken fuel (stripLast name ++ '_' :: natStr i) (i + 1)
    else some name

/-- The sequence of names the loop tries: the sanitized base first, then
after each collision the previous name with its last underscore segment
dropped and the next numeric suffix appended. -/
def cand (base : List Char) : Nat → List Char
  | 0 => base
  | k + 1 => stripLast (cand base k) ++ '_' :: natStr (k + 1)

/-- The transcription output document, as far as main.py line 151 reads it. -/
inductive JsonVal where
  | str (s : String)
  | arr (elems : List JsonVal)
  | obj (fields : List (String × JsonVal))

/-- Python dict access: defined on objects holding the key, an error
(KeyError or TypeError) otherwise. -/
def JsonVal.getField : JsonVal → String → Option JsonVal
  | .obj fields, k => fields.lookup k
  | _, _ => none

/-- Python list indexing: defined on arrays long enough, an error otherwise. -/
def JsonVal.getIdx : JsonVal → Nat → Option JsonVal
  | .arr elems, i => elems.get? i
  | _, _ => none

/-- The accessed value must be a string to be stored as transcription text. -/
def JsonVal.getStr : JsonVal → Option String
  | .str s => some s
  | _ => none

/-- main.py line 151: the access path results, transcripts, index 0,
transcript, applied to the loaded output document. -/
def extractTranscript (doc : JsonVal) : Option String :=
  (doc.getField ("results")).bind (fun r =>
    (r.getField ("transcripts")).bind (fun ts =>
      (ts.getIdx 0).bind (fun t0 =>
        (t0.getField ("transcript")).bind JsonVal.getStr)))

/-- Terminal outcome of a transcription job. -/
inductive TerminalStatus where
  | completed
  | failed (reason : String)
  deriving DecidableEq

/-- main.py lines 114..132: poll until the status is FAILED or COMPLETED;
every other status string keeps the loop polling. The argument is the
stream of (status, failure reason) pairs successive polls would see; the
result carries the terminal status and the number of polls made, and
none models a stream without terminal status, on which the source loop
never returns. On FAILED the service-reported reason is read from the
last poll (line 130) and only logged; no exception is raised on either
terminal outcome. -/
def await_transcription_job : List (String × String) → Option (TerminalStatus × Nat)
  | [] => none
  | (st, reason) :: rest =>
    if st == "COMPLETED" then some (TerminalStatus.completed, 1)
    else if st == "FAILED" then some (TerminalStatus.failed reason, 1)
    else (await_transcription_job rest).map (fun q => (q.1, q.2 + 1))

/-- A row of the talks table. -/
structure TalkRow where
  guid : String
  title : String
  mp3Link : String
  deriving DecidableEq

/-- A row of the transcriptions table. -/
structure TransRow where
  guid : String
  transcription : String
  deriving DecidableEq

/-- The SQLite database: the talks table and the transcriptions table,
the latter only ever extended by appends. -/
structure DbState where
  talks : List TalkRow
  transcriptions : List TransRow
  deriving DecidableEq

/-- The two S3 buckets: rs-dharma-audio and rs-dharma-transcriptions. -/
structure S3State where
  audio : List (String × String)
  transOut : List (String × JsonVal)

/-- The remote world as the pipeline observes it: which job names the
service reports taken, how many allocation iterations are inspected, and
the status stream answered to the polls. -/
structure PipelineEnv where
  isTaken : List Char → Bool
  allocFuel : Nat
  polls : List (String × String)

/-- The request sent by start_transcription_job (main.py lines 99..105). -/
structure JobRequest where
  name : List Char
  mediaFileUri : String
  outputKey : String
  deriving DecidableEq

/-- Python exceptions that can escape the pipeline, plus two fuel
exhaustion markers standing in for the unbounded source loops. -/
inductive PErr where
  | typeError
  | allocStuck
  | pollStuck
  | downloadError
  | malformedResult
  deriving DecidableEq

/-- fetchone on select title, mp3_link from talks where guid = ?. -/
def lookupTalk (db : DbState) (g : String) : Option TalkRow :=
  db.talks.find? (fun t => t.guid == g)

/-- main.py lines 164..173: the selection query, the first talk with no
matching row in the transcriptions table. -/
def selectPending (db : DbState) : Option String :=
  (db.talks.find? (fun t => !(db.transcriptions.any (fun r => r.guid == t.guid)))).map
    TalkRow.guid

/-- main.py lines 70..84: stream the mp3 into the audio bucket under the
guid as key; the stored value stands for the bytes behind the mp3 link.
A missing talk row makes the fetchone unpacking raise. -/
def upload_talk_audio (s3 : S3State) (db : DbState) (g : String) : Option S3State :=
  match lookupTalk db g with
  | none => none
  | some t => some { s3 with audio := (g, t.mp3Link) :: s3.audio }

/-- main.py lines 87..111: sanitize the title, allocate a free job name
through the collision loop, and create the job with the staged audio as
input and the guid plus the suffix _standard as output key. -/
def transcribe_talk (env : PipelineEnv) (talk : TalkRow) : Option JobRequest :=
  (allocLoop env.isTaken env.allocFuel (sanitize talk.title.data) 1).map (fun n =>
    { name := n,
      mediaFileUri := "s3://rs-dharma-audio/" ++ talk.guid,
      outputKey := talk.guid ++ "_standard" })

/-- main.py lines 135..159: download the output document stored under the
guid, an underscore and the transcription type, parse the transcript
field out of it, and append one row to the transcriptions table. Every
error path leaves the table unchanged. -/
def download_transcription (s3 : S3State) (db : DbState) (g : String) (ttype : String) :
    Option PErr × DbState :=
  match s3.transOut.lookup (g ++ "_" ++ ttype) with
  | none => (some PErr.downloadError, db)
  | some doc =>
    match extractTranscript doc with
    | none => (some PErr.malformedResult, db)
    | some text =>
      (none,
        { db with transcriptions := db.transcriptions ++ [{ guid := g, transcription := text }] })

/-- main.py lines 54..67: the per-item pipeline: fetch the talk row,
upload the audio, create the job, wait for a terminal status, and then
call download_transcription unconditionally, whatever the terminal
status was. The call on line 67 passes no transcription type, so the
Python default standard appears here at the call site. -/
def save_transcription_from_talk (env : PipelineEnv) (s3 : S3State) (db : DbState) (g : String) :
    Option PErr × S3State × DbState :=
  match lookupTalk db g with
  | none => (some PErr.typeError, s3, db)
  | some talk =>
    match upload_talk_audio s3 db g with
    | none => (some PErr.typeError, s3, db)
    | some s3Up =>
      match transcribe_talk env talk with
      | none => (some PErr.allocStuck, s3Up, db)
      | some _job =>
        match await_transcription_job env.polls with
        | none => (some PErr.pollStuck, s3Up, db)
        | some _t =>
          let res := download_transcription s3Up db g ("standard")
          (res.1, s3Up, res.2)

/-- main.py lines 162..175: pick one pending talk, run the per-item
pipeline, and then on line 175 call download_transcription a second
time. When the selection query returns no row, line 173 subscripts the
empty fetchone result, a TypeError. -/
def download_one_new_talk (env : PipelineEnv) (s3 : S3State) (db : DbState) :
    Option PErr × S3State × DbState :=
  match selectPending db with
  | none => (some PErr.typeError, s3, db)
  | some g =>
    match save_transcription_from_talk env s3 db g with
    | (some e, s3A, dbA) => (some e, s3A, dbA)
    | (none, s3A, dbA) =>
      let res := download_transcription s3A dbA g ("standard")
      (res.1, s3A, res.2)

/-- The catalog item of the end-to-end scenario in the spec. -/
def talkA : TalkRow :=
  { guid := "abc123", title := "Morning Talk #1!", mp3Link := "http://example.org/a.mp3" }

/-- A well-formed output document whose transcript text is hello world. -/
def jdocHello : JsonVal :=
  JsonVal.obj [(("results"),
    JsonVal.obj [(("transcripts"),
      JsonVal.arr [JsonVal.obj [(("transcript"), JsonVal.str ("hello world"))]])])]

/-- Catalog with one untranscribed talk. -/
def db0 : DbState := { talks := [talkA], transcriptions := [] }

/-- Catalog whose only talk already has a transcript row. -/
def dbDone : DbState :=
  { talks := [talkA], transcriptions := [{ guid := "abc123", transcription := "prev" }] }

/-- Empty buckets. -/
def s3Empty : S3State := { audio := [], transOut := [] }

/-- Buckets holding the completed output document for talkA. -/
def s3Good : S3State := { audio := [], transOut := [(("abc123_standard"), jdocHello)] }

/-- Environment with no name collisions and an immediately completed job. -/
def envTriv : PipelineEnv :=
  { isTaken := fun _ => false, allocFuel := 1, polls := [(("COMPLETED"), "")] }

/-- Environment whose job ends FAILED with reason boom after one
in-progress poll. -/
def envFail : PipelineEnv :=
  { isTaken := fun _ => false, allocFuel := 1,
    polls := [(("IN_PROGRESS"), ""), (("FAILED"), "boom")] }

/-- Table state after one successful transcript write for talkA. -/
def dbAfter1 : DbState := (download_transcription s3Good db0 ("abc123") ("standard")).2

/-- Collision predicate that reports only the sanitized base name taken. -/
def takenC3 : List Char → Bool := fun n => n == ("MorningTalk1").data

/-- Collision predicate reporting the first two generated candidates of
the base ab taken. -/
def takenTwo : List Char → Bool := fun n => n == ("ab").data || n == ("_1").data

/-- The job request actually submitted for talkA under envTriv. -/
def jobA : JobRequest :=
  { name := ("MorningTalk1").data,
    mediaFileUri := "s3://rs-dharma-audio/abc123",
    outputKey := "abc123_standard" }

/-- pySplit always produces at least one chunk, as Python str.split does. -/
theorem pySplit_ne_nil (sep : Char) (l : List Char) : pySplit sep l ≠ [] := by
  cases l with
  | nil => simp [pySplit]
  | cons c rest =>
    simp only [pySplit]
    by_cases h : (c == sep) = true
    · simp [h]
    · simp only [h]
      cases hh : pySplit sep rest with
      | nil => simp [consHead, hh]
      | cons a b => simp [consHead, hh]

/-- A separator occurrence is a hard chunk boundary for pySplit. -/
theorem pySplit_append (sep : Char) (xs ys : List Char) :
    pySplit sep (xs ++ sep :: ys) = pySplit sep xs ++ pySplit sep ys := by
  induction xs with
  | nil => simp [pySplit]
  | cons c rest ih =>
    by_cases h : (c == sep) = true
    · simp [pySplit, h, ih]
    · have e1 : pySplit sep ((c :: rest) ++ sep :: ys) =
          consHead c (pySplit sep (rest ++ sep :: ys)) := by
        simp [pySplit, h]
      have e2 : pySplit sep (c :: rest) = consHead c (pySplit sep rest) := by
        simp [pySplit, h]
      rw [e1, e2, ih]
      cases hh : pySplit sep rest with
      | nil => exact absurd hh (pySplit_ne_nil sep rest)
      | cons a b => simp [consHead, hh]

/-- A chunk free of the separator splits into itself alone. -/
theorem pySplit_no_sep (sep : Char) (l : List Char) (h : ∀ c ∈ l, (c == sep) = false) :
    pySplit sep l = [l] := by
  induction l with
  | nil => rfl
  | cons c rest ih =>
    have hc : (c == sep) = false := h c (List.mem_cons_self c rest)
    have hr := ih (fun d hd => h d (List.mem_cons_of_mem c hd))
    simp [pySplit, hc, hr, consHead]

/-- Joining the chunks of a split with the same separator restores the list. -/
theorem pyJoin_pySplit (sep : Char) (l : List Char) :
    pyJoin [sep] (pySplit sep l) = l := by
  induction l with
  | nil => rfl
  | cons c rest ih =>
    simp only [pySplit]
    by_cases h : (c == sep) = true
    · have hc : c = sep := eq_of_beq h
      subst hc
      simp only [h, if_true]
      cases hh : pySplit c rest with
      | nil => exact absurd hh (pySplit_ne_nil c rest)
      | cons a b =>
        rw [hh] at ih
        simp [pyJoin, ih]
    · simp only [h, Bool.false_eq_true, if_false]
      cases hh : pySplit sep rest with
      | nil => exact absurd hh (pySplit_ne_nil sep rest)
      | cons a b =>
        rw [hh] at ih
        cases b with
        | nil => simp only [consHead, pyJoin] at ih ⊢; rw [ih]
        | cons b0 bs => simp only [consHead, pyJoin, List.cons_append] at ih ⊢; rw [ih]

/-- Decimal digit characters are never the underscore. -/
theorem digitChar_ne_us (d : Nat) (h : d < 10) : (digitChar d == '_') = false := by
  interval_cases d <;> rfl

/-- No underscore occurs among the decimal digits of a number. -/
theorem natStrAux_no_us (fuel : Nat) :
    ∀ n : Nat, ∀ c ∈ natStrAux fuel n, (c == '_') = false := by
  induction fuel with
  | zero => intro n c hc; simp [natStrAux] at hc
  | succ fuel ih =>
    intro n c hc
    by_cases h : n < 10
    · simp only [natStrAux, h, if_true, List.mem_singleton] at hc
      subst hc
      exact digitChar_ne_us n h
    · simp only [natStrAux, h, if_false, List.mem_append, List.mem_singleton] at hc
      rcases hc with hc | hc
      · exact ih (n / 10) c hc
      · subst hc
        exact digitChar_ne_us (n % 10) (Nat.mod_lt n (by omega))

/-- No underscore occurs in the Python decimal rendering of a number. -/
theorem natStr_no_us (n : Nat) : ∀ c ∈ natStr n, (c == '_') = false :=
  natStrAux_no_us (n + 1) n

/-- Dropping the last underscore segment after appending an underscore and
an underscore-free suffix recovers the original name. -/
theorem stripLast_concat (x d : List Char) (hd : ∀ c ∈ d, (c == '_') = false) :
    stripLast (x ++ '_' :: d) = x := by
  unfold stripLast
  rw [pySplit_append, pySplit_no_sep '_' d hd, List.dropLast_concat, pyJoin_pySplit]

/-- Closed form of the candidate sequence: after the base, candidate k is
the base with its last underscore segment dropped, followed by the
underscore suffix k. -/
theorem cand_closed (base : List Char) :
    ∀ k : Nat, cand base (k + 1) = stripLast base ++ '_' :: natStr (k + 1) := by
  intro k
  induction k with
  | zero => rfl
  | succ k ih =>
    show stripLast (cand base (k + 1)) ++ '_' :: natStr (k + 2) = _
    rw [ih, stripLast_concat (stripLast base) (natStr (k + 1)) (natStr_no_us (k + 1))]

/-- While every candidate from index m on up to m + k collides, the loop
advances k iterations along the candidate sequence. -/
theorem allocLoop_advance (isTaken : List Char → Bool) (base : List Char) :
    ∀ k f m : Nat, (∀ j, m ≤ j → j < m + k → isTaken (cand base j) = true) →
      allocLoop isTaken (k + f) (cand base m) (m + 1) =
        allocLoop isTaken f (cand base (m + k)) (m + k + 1) := by
  intro k
  induction k with
  | zero => intro f m _; simp
  | succ k ih =>
    intro f m h
    have hm : isTaken (cand base m) = true := h m (Nat.le_refl m) (by omega)
    have hstep : k + 1 + f = (k + f) + 1 := by omega
    rw [hstep]
    simp only [allocLoop, hm, if_true]
    have hn : stripLast (cand base m) ++ '_' :: natStr (m + 1) = cand base (m + 1) := rfl
    rw [hn]
    have hh : ∀ j, m + 1 ≤ j → j < m + 1 + k → isTaken (cand base j) = true := by
      intro j h1 h2
      exact h j (by omega) (by omega)
    rw [ih f (m + 1) hh]
    have e1 : m + 1 + k = m + (k + 1) := by omega
    rw [e1]

/-- Whatever name the allocation loop returns, the collision predicate was
false on it. -/
theorem allocLoop_not_taken (isTaken : List Char → Bool) :
    ∀ fuel name i r, allocLoop isTaken fuel name i = some r → isTaken r = false := by
  intro fuel
  induction fuel with
  | zero => intro name i r h; simp [allocLoop] at h
  | succ fuel ih =>
    intro name i r h
    simp only [allocLoop] at h
    by_cases ht : isTaken name = true
    · rw [if_pos ht] at h
      exact ih _ _ _ h
    · rw [if_neg ht] at h
      cases h
      exact Bool.eq_false_iff.mpr ht

/-- If every candidate collides the loop never returns, whatever fuel. -/
theorem allocLoop_none (isTaken : List Char → Bool) (base : List Char)
    (h : ∀ k, isTaken (cand base k) = true) :
    ∀ fuel m, allocLoop isTaken fuel (cand base m) (m + 1) = none := by
  intro fuel
  induction fuel with
  | zero => intro m; rfl
  | succ fuel ih =>
    intro m
    simp only [allocLoop, h m, if_true]
    have hn : stripLast (cand base m) ++ '_' :: natStr (m + 1) = cand base (m + 1) := rfl
    rw [hn]
    exact ih (m + 1)

/-- Polls that answer neither COMPLETED nor FAILED are skipped, each one
adding one to the poll count. -/
theorem await_skip (pre l : List (String × String))
    (hpre : ∀ p ∈ pre, (p.1 == "COMPLETED") = false ∧ (p.1 == "FAILED") = false) :
    await_transcription_job (pre ++ l) =
      (await_transcription_job l).map (fun q => (q.1, q.2 + pre.length)) := by
  induction pre with
  | nil =>
    cases h : await_transcription_job l with
    | none => simp [h]
    | some q => simp [h]
  | cons p pre ih =>
    obtain ⟨st, reason⟩ := p
    have h1 := (hpre (st, reason) (List.mem_cons_self _ _)).1
    have h2 := (hpre (st, reason) (List.mem_cons_self _ _)).2
    have ih2 := ih (fun q hq => hpre q (List.mem_cons_of_mem _ hq))
    have e1 : await_transcription_job (((st, reason) :: pre) ++ l) =
        (await_transcription_job (pre ++ l)).map (fun q => (q.1, q.2 + 1)) := by
      simp [List.cons_append, await_transcription_job, h1, h2]
    rw [e1, ih2, List.length_cons]
    cases await_transcription_job l with
    | none => rfl
    | some q => simp [Nat.add_assoc]

/-- String append is associative. -/
theorem string_append_assoc (a b c : String) : a ++ b ++ c = a ++ (b ++ c) := by
  cases a with
  | mk da =>
    cases b with
    | mk eb =>
      cases c with
      | mk fc =>
        show String.mk (da ++ eb ++ fc) = String.mk (da ++ (eb ++ fc))
        rw [List.append_assoc]

/-- Claim C1: the spec states that a successful run of the entry point on a
pending item leaves exactly one new transcriptions row for its guid. The
source calls download_transcription twice, once inside
save_transcription_from_talk (line 67) and once again in
download_one_new_talk (line 175), so the fully successful end-to-end run
evaluated here finishes without error yet appends two rows for the guid. -/
theorem claim_C1_bug :
    (download_one_new_talk envTriv s3Good db0).1 = none
    ∧ ((download_one_new_talk envTriv s3Good db0).2.2.transcriptions.filter
        (fun row => row.guid == ("abc123"))).length = 2 :=
  ⟨rfl, rfl⟩

/-- Claim C2: the spec states that a second transcript write for a guid
must fail with AlreadyExists and leave a single row. The source persists
with an unconditional append (line 158), so the second call evaluated here
succeeds and the table ends with two rows for the same guid. -/
theorem claim_C2_bug :
    (download_transcription s3Good dbAfter1 ("abc123") ("standard")).1 = none
    ∧ ((download_transcription s3Good dbAfter1 ("abc123") ("standard")).2.transcriptions.filter
        (fun row => row.guid == ("abc123"))).length = 2 :=
  ⟨rfl, rfl⟩

/-- Claim C3, counterexample: for the sanitized base MorningTalk1, which
holds no underscore, the second candidate the loop tries is the bare
suffix _1, not MorningTalk1_1 as the claim states: line 108 drops the
last underscore segment of the current name unconditionally, which for an
underscore-free name is the whole name. With only the base taken, the
allocator returns _1. -/
theorem claim_C3_cex :
    cand (sanitize (("Morning Talk #1!").data)) 1 = ("_1").data
    ∧ allocLoop takenC3 2 (sanitize (("Morning Talk #1!").data)) 1 = some (("_1").data)
    ∧ ("_1").data ≠ ("MorningTalk1_1").data := by
  refine ⟨rfl, rfl, ?_⟩
  decide

/-- Claim C3, amended: after the sanitized candidate, candidate k is the
base with its final underscore-separated segment dropped followed by the
suffix underscore k (so for an underscore-free base the candidates are
_1, _2, ...); the returned name is never one the collision predicate
reported taken; and with the first two candidates taken and the third
free, the loop returns the third candidate. -/
theorem claim_C3_amended (base : List Char) (isTaken : List Char → Bool)
    (h0 : isTaken (cand base 0) = true) (h1 : isTaken (cand base 1) = true)
    (h2 : isTaken (cand base 2) = false) :
    (∀ k, cand base (k + 1) = stripLast base ++ '_' :: natStr (k + 1))
    ∧ (∀ fuel name, allocLoop isTaken fuel base 1 = some name → isTaken name = false)
    ∧ allocLoop isTaken 3 base 1 = some (cand base 2) := by
  refine ⟨cand_closed base,
    fun fuel name h => allocLoop_not_taken isTaken fuel base 1 name h, ?_⟩
  have hj : ∀ j, 0 ≤ j → j < 0 + 2 → isTaken (cand base j) = true := by
    intro j _ hj2
    have hcase : j = 0 ∨ j = 1 := by omega
    rcases hcase with rfl | rfl
    · exact h0
    · exact h1
  have hadv := allocLoop_advance isTaken base 2 1 0 hj
  simp only [Nat.zero_add] at hadv
  have e0 : cand base 0 = base := rfl
  rw [e0] at hadv
  rw [hadv]
  simp [allocLoop, h2]

/-- Witness for the amended claim C3 at the concrete base ab with its
first two candidates ab and _1 taken: the loop returns the third
candidate. -/
theorem claim_C3_amended_wit :
    allocLoop takenTwo 3 (("ab").data) 1 = some (cand (("ab").data) 2) :=
  (claim_C3_amended (("ab").data) takenTwo (by decide) (by decide) (by decide)).2.2

/-- Claim C4, counterexample: with a catalog whose only talk already has a
transcript, the selection query returns no row and the entry point raises
TypeError (line 173 subscripts the empty fetchone result) instead of
exiting normally without an exception as the claim states. -/
theorem claim_C4_cex :
    (download_one_new_talk envTriv s3Empty dbDone).1 = some PErr.typeError := rfl

/-- Claim C4, amended: when no pending item exists the entry point raises
TypeError rather than signalling an empty queue as a normal result; no
state is changed. -/
theorem claim_C4_amended (env : PipelineEnv) (s3 : S3State) (db : DbState)
    (hsel : selectPending db = none) :
    download_one_new_talk env s3 db = (some PErr.typeError, s3, db) := by
  simp only [download_one_new_talk, hsel]

/-- Witness for the amended claim C4 at a concrete fully transcribed catalog. -/
theorem claim_C4_amended_wit :
    download_one_new_talk envTriv s3Empty dbDone = (some PErr.typeError, s3Empty, dbDone) :=
  claim_C4_amended envTriv s3Empty dbDone rfl

/-- Claim C5: when the poll stream ends in FAILED, the watcher returns
normally, carrying the service-reported reason, with no exception; the
pipeline for that item then stops with an error in the download stage
(the failed job produced no output object), and the database, in
particular the transcriptions table, is unchanged. -/
theorem claim_C5 (env : PipelineEnv) (s3 : S3State) (db : DbState) (g : String)
    (talk : TalkRow) (jn : List Char) (pre : List (String × String)) (r : String)
    (htalk : lookupTalk db g = some talk)
    (halloc : allocLoop env.isTaken env.allocFuel (sanitize talk.title.data) 1 = some jn)
    (hpolls : env.polls = pre ++ [(("FAILED"), r)])
    (hpre : ∀ p ∈ pre, (p.1 == "COMPLETED") = false ∧ (p.1 == "FAILED") = false)
    (hout : s3.transOut.lookup (g ++ "_" ++ ("standard")) = none) :
    await_transcription_job env.polls = some (TerminalStatus.failed r, pre.length + 1)
    ∧ (save_transcription_from_talk env s3 db g).1 = some PErr.downloadError
    ∧ (save_transcription_from_talk env s3 db g).2.2 = db := by
  have hawait : await_transcription_job env.polls =
      some (TerminalStatus.failed r, pre.length + 1) := by
    rw [hpolls, await_skip pre _ hpre]
    have e : await_transcription_job [(("FAILED"), r)] = some (TerminalStatus.failed r, 1) := rfl
    rw [e]
    simp [Nat.add_comm]
  have hjob : transcribe_talk env talk = some
      { name := jn,
        mediaFileUri := "s3://rs-dharma-audio/" ++ talk.guid,
        outputKey := talk.guid ++ "_standard" } := by
    unfold transcribe_talk
    rw [halloc]
    rfl
  have hsave : save_transcription_from_talk env s3 db g =
      (some PErr.downloadError, { s3 with audio := (g, talk.mp3Link) :: s3.audio }, db) := by
    simp only [save_transcription_from_talk, upload_talk_audio, htalk, hjob, hawait,
      download_transcription, hout]
  exact ⟨hawait, by rw [hsave], by rw [hsave]⟩

/-- Witness for claim C5: the concrete environment envFail polls
IN_PROGRESS and then FAILED with reason boom; the watcher reports the
reason after two polls, the pipeline stops with the download error, and
the database is unchanged. -/
theorem claim_C5_wit :
    await_transcription_job envFail.polls = some (TerminalStatus.failed ("boom"), 2)
    ∧ (save_transcription_from_talk envFail s3Empty db0 ("abc123")).1 = some PErr.downloadError
    ∧ (save_transcription_from_talk envFail s3Empty db0 ("abc123")).2.2 = db0 :=
  claim_C5 envFail s3Empty db0 ("abc123") talkA (sanitize (("Morning Talk #1!").data))
    [(("IN_PROGRESS"), "")] ("boom") rfl rfl rfl (by decide) rfl

/-- Claim C6: the watcher returns at the first poll whose status is
COMPLETED or FAILED, counting every poll before it, and any other status
string only keeps it polling; the four-element sample sequence completes
after exactly four polls, and a sequence ending in FAILED yields the
failure reason with no exception. -/
theorem claim_C6 (pre post : List (String × String)) (r : String)
    (hpre : ∀ p ∈ pre, (p.1 == "COMPLETED") = false ∧ (p.1 == "FAILED") = false) :
    await_transcription_job (pre ++ (("COMPLETED"), r) :: post) =
      some (TerminalStatus.completed, pre.length + 1)
    ∧ await_transcription_job (pre ++ (("FAILED"), r) :: post) =
      some (TerminalStatus.failed r, pre.length + 1)
    ∧ await_transcription_job
        [(("SUBMITTED"), ""), (("IN_PROGRESS"), ""), (("IN_PROGRESS"), ""), (("COMPLETED"), "")] =
      some (TerminalStatus.completed, 4) := by
  refine ⟨?_, ?_, rfl⟩
  · rw [await_skip pre _ hpre]
    have e : await_transcription_job ((("COMPLETED"), r) :: post) =
        some (TerminalStatus.completed, 1) := rfl
    rw [e]
    simp [Nat.add_comm]
  · rw [await_skip pre _ hpre]
    have e : await_transcription_job ((("FAILED"), r) :: post) =
        some (TerminalStatus.failed r, 1) := rfl
    rw [e]
    simp [Nat.add_comm]

/-- Witness for claim C6 with one unknown status before the terminal poll. -/
theorem claim_C6_wit :
    await_transcription_job ([(("SUBMITTED"), "")] ++ (("COMPLETED"), ("oops")) :: []) =
      some (TerminalStatus.completed, 2)
    ∧ await_transcription_job ([(("SUBMITTED"), "")] ++ (("FAILED"), ("oops")) :: []) =
      some (TerminalStatus.failed ("oops"), 2)
    ∧ await_transcription_job
        [(("SUBMITTED"), ""), (("IN_PROGRESS"), ""), (("IN_PROGRESS"), ""), (("COMPLETED"), "")] =
      some (TerminalStatus.completed, 4) :=
  claim_C6 [(("SUBMITTED"), "")] [] ("oops") (by decide)

/-- Claim C7: with the output document present under the standard key,
the extractor persists exactly the string at results, transcripts, index
0, transcript, appending one row; when that structure is absent it fails
with the malformed-result error and the table is unchanged; the sample
document with transcript hello world extracts exactly hello world. -/
theorem claim_C7 (s3 : S3State) (db : DbState) (g : String) (doc : JsonVal)
    (hdoc : s3.transOut.lookup (g ++ "_" ++ ("standard")) = some doc) :
    (∀ text, extractTranscript doc = some text →
      download_transcription s3 db g ("standard") =
        (none, { db with transcriptions :=
          db.transcriptions ++ [{ guid := g, transcription := text }] }))
    ∧ (extractTranscript doc = none →
      download_transcription s3 db g ("standard") = (some PErr.malformedResult, db))
    ∧ extractTranscript jdocHello = some ("hello world") := by
  refine ⟨?_, ?_, rfl⟩
  · intro text hex
    simp only [download_transcription, hdoc, hex]
  · intro hex
    simp only [download_transcription, hdoc, hex]

/-- Witness for claim C7 on the concrete hello world document. -/
theorem claim_C7_wit :
    download_transcription s3Good db0 ("abc123") ("standard") =
      (none, { db0 with transcriptions :=
        db0.transcriptions ++ [{ guid := ("abc123"), transcription := ("hello world") }] }) :=
  (claim_C7 s3Good db0 ("abc123") jdocHello rfl).1 ("hello world") rfl

/-- Claim C8: the object-store keys agree end to end: the audio is staged
under the guid, the submitted job reads the URI formed from that same
key, its output key is the guid with the suffix _standard, the download
stage reads the guid, an underscore and the type standard, which equals
the output key, and so the document the extractor parses and persists is
the one at the output key of the submitted job. -/
theorem claim_C8 (env : PipelineEnv) (s3 : S3State) (db : DbState) (talk : TalkRow)
    (job : JobRequest) (doc : JsonVal) (text : String)
    (hjob : transcribe_talk env talk = some job)
    (htalk : lookupTalk db talk.guid = some talk)
    (hdoc : s3.transOut.lookup (talk.guid ++ "_" ++ ("standard")) = some doc)
    (hex : extractTranscript doc = some text) :
    upload_talk_audio s3 db talk.guid =
      some { s3 with audio := (talk.guid, talk.mp3Link) :: s3.audio }
    ∧ job.mediaFileUri = "s3://rs-dharma-audio/" ++ talk.guid
    ∧ job.outputKey = talk.guid ++ "_standard"
    ∧ talk.guid ++ "_" ++ ("standard") = job.outputKey
    ∧ download_transcription s3 db talk.guid ("standard") =
      (none, { db with transcriptions :=
        db.transcriptions ++ [{ guid := talk.guid, transcription := text }] }) := by
  unfold transcribe_talk at hjob
  cases halloc : allocLoop env.isTaken env.allocFuel (sanitize talk.title.data) 1 with
  | none =>
    rw [halloc] at hjob
    simp at hjob
  | some nm =>
    rw [halloc] at hjob
    simp only [Option.map] at hjob
    injection hjob with hj
    subst hj
    refine ⟨?_, rfl, rfl, ?_, ?_⟩
    · simp only [upload_talk_audio, htalk]
    · rw [string_append_assoc]
      rfl
    · simp only [download_transcription, hdoc, hex]

/-- Witness for claim C8 on the concrete end-to-end scenario. -/
theorem claim_C8_wit :
    upload_talk_audio s3Good db0 talkA.guid =
      some { s3Good with audio := (talkA.guid, talkA.mp3Link) :: s3Good.audio }
    ∧ jobA.mediaFileUri = "s3://rs-dharma-audio/" ++ talkA.guid
    ∧ jobA.outputKey = talkA.guid ++ "_standard"
    ∧ talkA.guid ++ "_" ++ ("standard") = jobA.outputKey
    ∧ download_transcription s3Good db0 talkA.guid ("standard") =
      (none, { db0 with transcriptions :=
        db0.transcriptions ++ [{ guid := talkA.guid, transcription := ("hello world") }] }) :=
  claim_C8 envTriv s3Good db0 talkA jobA jdocHello ("hello world") rfl rfl rfl rfl

/-- Claim C9: the job-name candidate keeps exactly the word characters of
the title, in order, removing every other character and nothing else; the
result is a subsequence of the title and the sample title sanitizes to
MorningTalk1. -/
theorem claim_C9 :
    (∀ l : List Char, sanitize l = l.filter isWordChar)
    ∧ (∀ l : List Char, List.Sublist (sanitize l) l)
    ∧ sanitize (("Morning Talk #1!").data) = ("MorningTalk1").data := by
  have hfilter : ∀ l : List Char, sanitize l = l.filter isWordChar := by
    intro l
    induction l with
    | nil => rfl
    | cons c rest ih =>
      cases h : isWordChar c with
      | false => simp [sanitize, List.filter_cons, h, ih]
      | true => simp [sanitize, List.filter_cons, h, ih]
  refine ⟨hfilter, ?_, by decide⟩
  intro l
  rw [hfilter l]
  exact List.filter_sublist l

/-- Claim C10: the allocation loop imposes no retry bound of its own:
whenever some candidate in the generated sequence is free the loop
terminates with a name the predicate never reported taken, and when every
candidate collides no amount of fuel makes it return. -/
theorem claim_C10 (base : List Char) (isTaken : List Char → Bool) :
    ((∃ k, isTaken (cand base k) = false) →
      ∃ fuel name, allocLoop isTaken fuel base 1 = some name ∧ isTaken name = false)
    ∧ ((∀ k, isTaken (cand base k) = true) →
      ∀ fuel, allocLoop isTaken fuel base 1 = none) := by
  constructor
  · intro hfree
    have hspec : isTaken (cand base (Nat.find hfree)) = false := Nat.find_spec hfree
    have hmin : ∀ j, j < Nat.find hfree → isTaken (cand base j) = true := by
      intro j hj
      have hne := Nat.find_min hfree hj
      cases hh : isTaken (cand base j) with
      | false => exact absurd hh hne
      | true => rfl
    have hj0 : ∀ j, 0 ≤ j → j < 0 + Nat.find hfree → isTaken (cand base j) = true := by
      intro j _ hj2
      exact hmin j (by omega)
    have hadv := allocLoop_advance isTaken base (Nat.find hfree) 1 0 hj0
    simp only [Nat.zero_add] at hadv
    have e0 : cand base 0 = base := rfl
    rw [e0] at hadv
    refine ⟨Nat.find hfree + 1, cand base (Nat.find hfree), ?_, hspec⟩
    rw [hadv]
    simp [allocLoop, hspec]
  · intro htaken fuel
    exact allocLoop_none isTaken base htaken fuel 0

/-- Witness for claim C10: with no name ever taken the loop succeeds at
once, and with every name taken it returns nothing on the sample fuel. -/
theorem claim_C10_wit :
    (∃ fuel name, allocLoop (fun _ => false) fuel (("ab").data) 1 = some name
      ∧ (fun _ : List Char => false) name = false)
    ∧ allocLoop (fun _ => true) 5 (("ab").data) 1 = none :=
  ⟨(claim_C10 (("ab").data) (fun _ => false)).1 ⟨0, rfl⟩,
   (claim_C10 (("ab").data) (fun _ => true)).2 (fun _ => rfl) 5⟩

end Dharma
